import Mathlib

/-!
Verification of the fibre-trace classification-and-caching engine in
`download.py` (TraceTableParser / TubeClassifier / TrayMapper /
SegmentCache / TrayAlertEvaluator / Pipeline).

The Python functions are shallowly embedded as executable Lean
definitions; strings are `String`, machine ints are `Nat` (all the
relevant quantities are non-negative; `total_fibres = 0` encodes the
source's falsy `None`/`0` default, matching the `total_fibres or 0`
normalization in `_calculate_tube`).
-/

/- ## Python string-operation models -/

/-- List-of-chars prefix test, modeling Python `str.startswith`. -/
def isPrefixL : List Char → List Char → Bool
  | [], _ => true
  | _ :: _, [] => false
  | a :: as, b :: bs => a == b && isPrefixL as bs

/-- Containment of `needle` at some position of `hay`, modeling the
Python `in` operator on strings. -/
def containsL (needle : List Char) : List Char → Bool
  | [] => needle.isEmpty
  | c :: t => isPrefixL needle (c :: t) || containsL needle t

/-- Python `needle in hay`. -/
def strContains (hay needle : String) : Bool :=
  containsL needle.toList hay.toList

/-- Python `s.startswith(pre)`. -/
def strStartsWith (s pre : String) : Bool :=
  isPrefixL pre.toList s.toList

/-- Python whitespace class (the characters stripped by `str.strip` and
matched by the regex class `\s`). -/
def py_space (c : Char) : Bool :=
  c == ' ' || c == '\t' || c == '\n' || c == '\r' || c == Char.ofNat 11 || c == Char.ofNat 12

/-- Python `s.strip()`. -/
def pyStrip (s : String) : String :=
  String.mk (((s.toList.dropWhile py_space).reverse.dropWhile py_space).reverse)

/-- Python `s.upper()` (inputs of interest are ASCII). -/
def pyUpper (s : String) : String := String.mk (s.toList.map Char.toUpper)

/-- Python `s.lower()` (inputs of interest are ASCII). -/
def pyLower (s : String) : String := String.mk (s.toList.map Char.toLower)

/-- Python truthiness of `s.strip()`: the string is non-blank. -/
def nonblank (s : String) : Bool := !(pyStrip s == "")

/- ## TrayMapper (download.py, `process_csv`):
`tray_start = ((max(selected_fibre, 1) - 1) // 6) * 6 + 1`,
`tray_end = tray_start + 5`, `fibre_tray = f"{tray_start}-{tray_end}"`. -/

def tray_start (selected_fibre : Nat) : Nat :=
  ((max selected_fibre 1 - 1) / 6) * 6 + 1

def tray_end (selected_fibre : Nat) : Nat :=
  tray_start selected_fibre + 5

def fibre_tray (selected_fibre : Nat) : String :=
  toString (tray_start selected_fibre) ++ "-" ++ toString (tray_end selected_fibre)

/-- C1: for every parsed record the tray satisfies
`trayEnd = trayStart + 5` with
`trayStart = ((max(selectedFibre,1) - 1) / 6) * 6 + 1`, and whenever
`selectedFibre >= 1` we have `trayStart % 6 = 1` (the form `6k+1`) and
`trayStart <= selectedFibre <= trayEnd`. -/
theorem tray_band_invariant (sel : Nat) :
    tray_end sel = tray_start sel + 5 ∧
    tray_start sel = ((max sel 1 - 1) / 6) * 6 + 1 ∧
    (1 ≤ sel → tray_start sel % 6 = 1 ∧ tray_start sel ≤ sel ∧ sel ≤ tray_end sel) := by
  refine ⟨rfl, rfl, fun h => ?_⟩
  have hm : max sel 1 = sel := max_eq_left h
  simp only [tray_start, tray_end, hm]
  omega

theorem tray_band_invariant_witness :
    tray_start 7 % 6 = 1 ∧ tray_start 7 ≤ 7 ∧ 7 ≤ tray_end 7 :=
  (tray_band_invariant 7).2.2 (by decide)

/- ## Pipeline parity statistic (download.py, `process_data`):
`even = sum(1 for n in selected_fibres if n > 0 and n % 2 == 0)`,
`odd` likewise with `% 2 == 1`;
`majority_parity = "even" if even > odd else ("odd" if odd > even else None)`. -/

def parity_counts (selected_fibres : List Nat) : Nat × Nat :=
  (selected_fibres.countP (fun n => decide (0 < n) && (n % 2 == 0)),
   selected_fibres.countP (fun n => decide (0 < n) && (n % 2 == 1)))

def majority_parity (selected_fibres : List Nat) : Option String :=
  if (parity_counts selected_fibres).2 < (parity_counts selected_fibres).1 then some "even"
  else if (parity_counts selected_fibres).1 < (parity_counts selected_fibres).2 then some "odd"
  else none

/-- C9: the aggregate parity statistic counts records with odd versus
even `selectedFibre` ignoring zero values, and equals `"even"` when
evens outnumber odds, `"odd"` when odds outnumber evens, and `none` on
a tie; a batch of 10 records with 7 odd and 3 even yields `"odd"`. -/
theorem majority_parity_spec (l : List Nat) :
    (majority_parity l = some "even" ↔ (parity_counts l).2 < (parity_counts l).1) ∧
    (majority_parity l = some "odd" ↔ (parity_counts l).1 < (parity_counts l).2) ∧
    (majority_parity l = none ↔ (parity_counts l).1 = (parity_counts l).2) ∧
    parity_counts (0 :: l) = parity_counts l ∧
    majority_parity [1, 3, 5, 7, 9, 11, 13, 2, 4, 6] = some "odd" := by
  have hne : ("even" : String) ≠ "odd" := by decide
  refine ⟨?_, ?_, ?_, ?_, by decide⟩
  · unfold majority_parity
    split_ifs with h1 h2
    · exact iff_of_true rfl h1
    · exact iff_of_false (fun h => hne (Option.some.inj h).symm) h1
    · exact iff_of_false (by simp) h1
  · unfold majority_parity
    split_ifs with h1 h2
    · exact iff_of_false (fun h => hne (Option.some.inj h)) (by omega)
    · exact iff_of_true rfl h2
    · exact iff_of_false (by simp) h2
  · unfold majority_parity
    split_ifs with h1 h2
    · exact iff_of_false (by simp) (by omega)
    · exact iff_of_false (by simp) (by omega)
    · exact iff_of_true rfl (by omega)
  · simp [parity_counts, List.countP_cons]

/- ## SegmentCache fill (download.py, `process_data`):
the crawl list is built with
`if seg_id: ... if seg_id not in [x[0] for x in to_crawl]: to_crawl.append((seg_id, url))`
(the second variant guards with a `seg_ids_needed` set, same effect),
and the crawl loop then issues exactly one `requests.get` per entry of
`to_crawl`, so the number of fetches for a segment id equals its number
of occurrences in the built list. -/

/-- One step of the crawl-list construction: skip empty ids, append an
id only when it is not already listed. -/
def add_crawl_target (to_crawl : List String) (seg_id : String) : List String :=
  if seg_id = "" then to_crawl
  else if seg_id ∈ to_crawl then to_crawl
  else to_crawl ++ [seg_id]

/-- The crawl list built from the per-record segment-id needs, in order. -/
def build_to_crawl (seg_ids : List String) : List String :=
  seg_ids.foldl add_crawl_target []

theorem mem_foldl_add_crawl (l : List String) :
    ∀ (acc : List String) (s : String),
      s ∈ l.foldl add_crawl_target acc ↔ s ∈ acc ∨ (s ∈ l ∧ s ≠ "") := by
  induction l with
  | nil => intro acc s; simp
  | cons hd tl ih =>
    intro acc s
    rw [List.foldl_cons, ih]
    unfold add_crawl_target
    split_ifs with h1 h2
    · subst h1
      by_cases hs : s = "" <;> simp_all
    · by_cases hs : s = hd <;> simp_all
    · by_cases hs : s = hd <;> simp_all

theorem nodup_foldl_add_crawl (l : List String) :
    ∀ acc : List String, acc.Nodup → (l.foldl add_crawl_target acc).Nodup := by
  induction l with
  | nil => intro acc h; simpa using h
  | cons hd tl ih =>
    intro acc hacc
    rw [List.foldl_cons]
    refine ih _ ?_
    unfold add_crawl_target
    split_ifs with h1 h2
    · exact hacc
    · exact hacc
    · simp [List.nodup_append, hacc, h2]

/-- C2: within one run the cache-fill phase issues at most one fetch per
distinct segment identifier — the built crawl list contains any segment
id at most once, and exactly once when some record needs that (non-empty)
id. -/
theorem cache_fill_single_fetch (seg_ids : List String) (s : String) :
    (build_to_crawl seg_ids).count s ≤ 1 ∧
    (s ≠ "" → s ∈ seg_ids → (build_to_crawl seg_ids).count s = 1) := by
  have hnd : (build_to_crawl seg_ids).Nodup :=
    nodup_foldl_add_crawl seg_ids [] List.nodup_nil
  have hle : (build_to_crawl seg_ids).count s ≤ 1 :=
    List.nodup_iff_count_le_one.mp hnd s
  refine ⟨hle, fun hne hmem => ?_⟩
  have hin : s ∈ build_to_crawl seg_ids :=
    (mem_foldl_add_crawl seg_ids [] s).mpr (Or.inr ⟨hmem, hne⟩)
  have hpos : 0 < (build_to_crawl seg_ids).count s := List.count_pos_iff.mpr hin
  omega

theorem cache_fill_single_fetch_witness :
    (build_to_crawl ["SEG1", "SEG2", "SEG1"]).count "SEG1" ≤ 1 ∧
    (build_to_crawl ["SEG1", "SEG2", "SEG1"]).count "SEG1" = 1 :=
  ⟨(cache_fill_single_fetch ["SEG1", "SEG2", "SEG1"] "SEG1").1,
   (cache_fill_single_fetch ["SEG1", "SEG2", "SEG1"] "SEG1").2 (by decide) (by decide)⟩

/- ## TraceTableParser marker gate (download.py, `process_csv`):
`for i, row in enumerate(data): if any("Fibre Trace Details" in cell for cell in row): start_index = i + 1; break`;
`if start_index is None: raise ValueError(...)`; `data = data[start_index:]`. -/

/-- A row contains the detail-block marker text in some cell. -/
def contains_marker (row : List String) : Bool :=
  row.any (fun c => strContains c "Fibre Trace Details")

/-- Index of the first row containing the marker (the loop with `break`). -/
def find_start : List (List String) → Option Nat
  | [] => none
  | row :: rest =>
    if contains_marker row then some 0
    else (find_start rest).map (fun i => i + 1)

/-- The marker gate: drop everything up to and including the marker row,
or fail when the marker is absent (the `raise ValueError`). -/
def consume_to_marker (data : List (List String)) : Except String (List (List String)) :=
  match find_start data with
  | none => Except.error "Fibre Trace Details not found in the file."
  | some i => Except.ok (data.drop (i + 1))

theorem find_start_eq_none_iff (data : List (List String)) :
    find_start data = none ↔ ∀ row ∈ data, contains_marker row = false := by
  induction data with
  | nil => simp [find_start]
  | cons hd tl ih =>
    unfold find_start
    by_cases h : contains_marker hd <;> simp [h, ih]

theorem find_start_eq_some (data : List (List String)) :
    ∀ i, find_start data = some i →
      ∃ h : i < data.length,
        contains_marker (data.get ⟨i, h⟩) = true ∧
        ∀ j (hj : j < i), contains_marker (data.get ⟨j, Nat.lt_trans hj h⟩) = false := by
  induction data with
  | nil => intro i h; simp [find_start] at h
  | cons hd tl ih =>
    intro i h
    unfold find_start at h
    by_cases hm : contains_marker hd
    · rw [if_pos hm] at h
      obtain rfl : (0 : Nat) = i := Option.some.inj h
      exact ⟨Nat.succ_pos _, hm, fun j hj => absurd hj (Nat.not_lt_zero j)⟩
    · rw [if_neg hm] at h
      obtain ⟨i0, hi0, rfl⟩ := Option.map_eq_some'.mp h
      obtain ⟨h0, hmark, hbefore⟩ := ih i0 hi0
      refine ⟨Nat.succ_lt_succ h0, hmark, fun j hj => ?_⟩
      cases j with
      | zero => simpa using hm
      | succ j0 => exact hbefore j0 (Nat.lt_of_succ_lt_succ hj)

/-- C7: parsing fails (with the fatal marker error, producing no rows)
iff no input row contains the detail-block marker text; when the marker
first occurs at row `i`, rows `0..i` are consumed and parsing proceeds
on the remaining rows `data.drop (i+1)`. -/
theorem marker_gate (data : List (List String)) :
    ((∀ row ∈ data, contains_marker row = false) ↔
      consume_to_marker data = Except.error "Fibre Trace Details not found in the file.") ∧
    (∀ i, find_start data = some i →
      consume_to_marker data = Except.ok (data.drop (i + 1)) ∧
      ∃ h : i < data.length,
        contains_marker (data.get ⟨i, h⟩) = true ∧
        ∀ j (hj : j < i), contains_marker (data.get ⟨j, Nat.lt_trans hj h⟩) = false) := by
  constructor
  · rw [← find_start_eq_none_iff]
    unfold consume_to_marker
    constructor
    · intro h; rw [h]
    · intro h
      cases hf : find_start data with
      | none => rfl
      | some i => rw [hf] at h; exact absurd h (by simp)
  · intro i hi
    refine ⟨?_, find_start_eq_some data i hi⟩
    unfold consume_to_marker
    rw [hi]

theorem marker_gate_witness :
    consume_to_marker [["x"], ["a", "Fibre Trace Details follow"], ["r1"], ["r2"]] =
      Except.ok [["r1"], ["r2"]] :=
  ((marker_gate [["x"], ["a", "Fibre Trace Details follow"], ["r1"], ["r2"]]).2 1 (by decide)).1

/- ## Tray display pass (download.py, `process_csv`):
`curr_has_conn = bool(str(connect_disconnect).strip())`;
`prev_has_conn = bool(str(processed_data[-1][4]).strip())` when a
previous record row exists (the stored column 4 is that record's
connect/disconnect value);
`display_tray = fibre_tray if (curr_has_conn or prev_has_conn) else ""`.
A record is the pair (connect_disconnect, fibre_tray). -/

def tray_display_pass_aux (prev_has_conn : Bool) :
    List (String × String) → List String
  | [] => []
  | (cd, tray) :: rest =>
    (if nonblank cd || prev_has_conn then tray else "") ::
      tray_display_pass_aux (nonblank cd) rest

/-- The single left-to-right pass over all records; no record precedes
the first one. -/
def tray_display_pass (records : List (String × String)) : List String :=
  tray_display_pass_aux false records

theorem tray_display_pass_aux_length (l : List (String × String)) :
    ∀ p : Bool, (tray_display_pass_aux p l).length = l.length := by
  induction l with
  | nil => intro p; rfl
  | cons hd tl ih =>
    intro p
    obtain ⟨cd, tray⟩ := hd
    simp [tray_display_pass_aux, ih]

theorem tray_display_pass_aux_get (l : List (String × String)) :
    ∀ (p : Bool) (i : Nat) (h : i < l.length)
      (h2 : i < (tray_display_pass_aux p l).length),
      (tray_display_pass_aux p l).get ⟨i, h2⟩ =
        if nonblank (l.get ⟨i, h⟩).1 ||
            (if i = 0 then p else nonblank (l.get ⟨i - 1, by omega⟩).1) then
          (l.get ⟨i, h⟩).2
        else "" := by
  induction l with
  | nil => intro p i h; exact absurd h (by simp)
  | cons hd tl ih =>
    intro p i h h2
    obtain ⟨cd, tray⟩ := hd
    cases i with
    | zero => simp [tray_display_pass_aux]
    | succ n =>
      have hn : n < tl.length := Nat.lt_of_succ_lt_succ h
      have hn2 : n < (tray_display_pass_aux (nonblank cd) tl).length := by
        rw [tray_display_pass_aux_length]; exact hn
      have step :
          (tray_display_pass_aux p ((cd, tray) :: tl)).get ⟨n + 1, h2⟩ =
            (tray_display_pass_aux (nonblank cd) tl).get ⟨n, hn2⟩ := by
        simp [tray_display_pass_aux]
      rw [step, ih (nonblank cd) n hn hn2]
      cases n with
      | zero => simp
      | succ m => simp

/-- C4: in the single left-to-right pass, record `i`'s tray is visible
(rendered as its tray string) iff its own `connectDisconnect` is
non-blank or the immediately preceding record's `connectDisconnect` was
non-blank; a hidden tray renders as the empty string. In particular a
non-blank `connectDisconnect` at record `i` makes record `i+1`'s tray
visible regardless of record `i+1`'s own marker. -/
theorem tray_visibility (records : List (String × String)) (i : Nat)
    (h : i < records.length) (h2 : i < (tray_display_pass records).length) :
    (tray_display_pass records).get ⟨i, h2⟩ =
      if nonblank (records.get ⟨i, h⟩).1 ||
          (decide (0 < i) && nonblank (records.get ⟨i - 1, by omega⟩).1) then
        (records.get ⟨i, h⟩).2
      else "" := by
  refine (tray_display_pass_aux_get records false i h h2).trans ?_
  cases i with
  | zero => simp
  | succ n => simp

theorem tray_visibility_witness :
    (tray_display_pass [("connect x", "1-6"), ("", "7-12")]).get ⟨1, by decide⟩ = "7-12" := by
  have h := tray_visibility [("connect x", "1-6"), ("", "7-12")] 1 (by decide) (by decide)
  exact h.trans (by decide)

/- ## TubeClassifier (download.py, `_calculate_tube` and the in-line
copies in `process_csv`), with the FSS override applied afterwards:
`if self._is_fss_cable(fibre_cable): if not (self._is_bjl_splice_case(a_end) and self._is_bjl_splice_case(b_end)): tube = "Non-CAN2000"`.
`total_fibres = 0` encodes the source's `None` (the code normalizes with
`total_fibres or 0` and tests truthiness); inside the guarded branches
the saturating `Nat` subtraction `total_fibres - 24` agrees with the
Python `int` subtraction, since whenever `total_fibres ≤ 24` both
versions of the comparison are true under the branch guards. -/

/-- `_is_fss_cable`: `bool(name and "FSS" in name.upper())`. -/
def is_fss_cable (name : String) : Bool :=
  !(name == "") && strContains (pyUpper name) "FSS"

/-- `_is_bjl_splice_case`: `bool(s and "BJL" in s.upper())`. -/
def is_bjl_splice_case (s : String) : Bool :=
  !(s == "") && strContains (pyUpper s) "BJL"

inductive EndType
  | AJL
  | BJL
  | FJL
deriving DecidableEq

/-- Endpoint suffix-token classification, first match wins:
`"AJL" if "AJL" in e else "BJL" if "BJL" in e else "FJL" if "FJL" in e else None`. -/
def end_type (e : String) : Option EndType :=
  if strContains e "AJL" then some EndType.AJL
  else if strContains e "BJL" then some EndType.BJL
  else if strContains e "FJL" then some EndType.FJL
  else none

/-- Steps 1-2 of the classifier (`_calculate_tube` before the FSS
override). -/
def calculate_tube_base (fibre_cable : String) (total_fibres selected_fibre : Nat)
    (a_end b_end : String) : String :=
  if strStartsWith fibre_cable "BLS" && decide (total_fibres ≠ 0) &&
      decide (144 ≤ total_fibres) then
    if selected_fibre ≤ 24 then "Trunk"
    else if total_fibres - 24 < selected_fibre then "Local"
    else "Junction"
  else
    let a_t := end_type a_end
    let b_t := end_type b_end
    if (a_t = some EndType.BJL ∧ b_t = some EndType.BJL) ∨
        (a_t = some EndType.FJL ∧ b_t = some EndType.BJL) ∨
        (a_t = some EndType.BJL ∧ b_t = some EndType.FJL) then
      if selected_fibre ≤ 24 then "Trunk"
      else if total_fibres ≠ 0 ∧ total_fibres - 24 < selected_fibre then "Local"
      else "Junction"
    else if (a_t = some EndType.AJL ∧ b_t = some EndType.BJL) ∨
        (a_t = some EndType.BJL ∧ b_t = some EndType.AJL) then
      if total_fibres = 144 then
        if (49 ≤ selected_fibre ∧ selected_fibre ≤ 72) ∨
            (121 ≤ selected_fibre ∧ selected_fibre ≤ 144) then "Local"
        else "Junction"
      else
        if selected_fibre ≠ 0 ∧ total_fibres ≠ 0 ∧ total_fibres - 24 < selected_fibre then
          "Local"
        else "Junction"
    else "Non-CAN2000"

/-- The full classifier: steps 1-2 and then the FSS override. -/
def calculate_tube (fibre_cable : String) (total_fibres selected_fibre : Nat)
    (a_end b_end : String) : String :=
  let tube := calculate_tube_base fibre_cable total_fibres selected_fibre a_end b_end
  if is_fss_cable fibre_cable && !(is_bjl_splice_case a_end && is_bjl_splice_case b_end) then
    "Non-CAN2000"
  else tube

/-- Modelled from the spec wording of C3: an endpoint is "BJL-family"
when the endpoint classification of steps 1-2 assigns it `BJL` or `FJL`
(section 4.2 lists the BJL-family combinations as BJL/BJL, FJL/BJL,
BJL/FJL). -/
def is_bjl_family (e : String) : Bool :=
  decide (end_type e = some EndType.BJL) || decide (end_type e = some EndType.FJL)

/-- C3 fails as stated: with `cableName = "XFSS(#1)"` (secondary-system
marker present), `aEnd = "FJL-A"` and `bEnd = "BJL-B"` are both
BJL-family, so the claim requires the normal-rule result (`"Trunk"`) to
stand, but the code's override tests the substring `"BJL"` on each raw
endpoint, rejects `"FJL-A"`, and forces `"Non-CAN2000"`. -/
theorem fss_override_counterexample :
    is_fss_cable "XFSS(#1)" = true ∧
    is_bjl_family "FJL-A" = true ∧
    is_bjl_family "BJL-B" = true ∧
    calculate_tube_base "XFSS(#1)" 200 1 "FJL-A" "BJL-B" = "Trunk" ∧
    calculate_tube "XFSS(#1)" 200 1 "FJL-A" "BJL-B" = "Non-CAN2000" := by
  refine ⟨by decide, by decide, by decide, by decide, by decide⟩

/-- C3 (amended): for every input whose cableName carries the FSS
marker, the classifier returns `Non-CAN2000` unless both `aEnd` and
`bEnd` contain the substring `"BJL"` (case-insensitive), in which case
the result of the normal classification rules (steps 1-2) stands; in
particular `aEnd` BJL with `bEnd` AJL is forced to `Non-CAN2000`. -/
theorem fss_override_rule (cable : String) (total sel : Nat) (a b : String)
    (hfss : is_fss_cable cable = true) :
    calculate_tube cable total sel a b =
      if is_bjl_splice_case a && is_bjl_splice_case b then
        calculate_tube_base cable total sel a b
      else "Non-CAN2000" := by
  unfold calculate_tube
  rw [hfss]
  cases h : is_bjl_splice_case a && is_bjl_splice_case b <;> simp [h]

theorem fss_override_rule_witness :
    calculate_tube "XFSS(#1)" 200 1 "12BJL-A" "34BJL-B" =
      if is_bjl_splice_case "12BJL-A" && is_bjl_splice_case "34BJL-B" then
        calculate_tube_base "XFSS(#1)" 200 1 "12BJL-A" "34BJL-B"
      else "Non-CAN2000" :=
  fss_override_rule "XFSS(#1)" 200 1 "12BJL-A" "34BJL-B" (by decide)

/-- C5 fails as stated: with `aEnd = "12AJL-X"`, `bEnd = "34BJL-Y"`,
`totalFibres = 144` and `selectedFibre = 60`, the position 60 lies
inside the band 49-72, so the code (consistently with the claim's own
general rule) yields `"Local"`, not the claimed `"Junction"`. -/
theorem ajl_bjl_144_counterexample :
    end_type "12AJL-X" = some EndType.AJL ∧
    end_type "34BJL-Y" = some EndType.BJL ∧
    strStartsWith "CBL (#60)" "BLS" = false ∧
    is_fss_cable "CBL (#60)" = false ∧
    calculate_tube "CBL (#60)" 144 60 "12AJL-X" "34BJL-Y" = "Local" ∧
    calculate_tube "CBL (#60)" 144 60 "12AJL-X" "34BJL-Y" ≠ "Junction" := by
  refine ⟨by decide, by decide, by decide, by decide, by decide, by decide⟩

/-- C5 (amended): for every record with one endpoint classified AJL and
the other BJL (either order), not taken by the backbone-prefix rule and
without the FSS marker, if `totalFibres = 144` then positions 49-72 and
121-144 yield `"Local"` and every other position yields `"Junction"`;
in particular `aEnd = "12AJL-X"`, `bEnd = "34BJL-Y"`, `totalFibres =
144` gives `"Local"` for `selectedFibre = 60` (inside 49-72) and
`"Local"` for `selectedFibre = 70`. -/
theorem ajl_bjl_144_rule (cable : String) (sel : Nat) (a b : String)
    (hbls : strStartsWith cable "BLS" = false)
    (hfss : is_fss_cable cable = false)
    (hab : (end_type a = some EndType.AJL ∧ end_type b = some EndType.BJL) ∨
           (end_type a = some EndType.BJL ∧ end_type b = some EndType.AJL)) :
    calculate_tube cable 144 sel a b =
      if (49 ≤ sel ∧ sel ≤ 72) ∨ (121 ≤ sel ∧ sel ≤ 144) then "Local"
      else "Junction" := by
  unfold calculate_tube calculate_tube_base
  rcases hab with ⟨ha, hb⟩ | ⟨ha, hb⟩ <;>
    simp [hbls, hfss, ha, hb]

theorem ajl_bjl_144_rule_witness :
    calculate_tube "CBL (#70)" 144 70 "12AJL-X" "34BJL-Y" =
      if (49 ≤ 70 ∧ 70 ≤ 72) ∨ (121 ≤ 70 ∧ 70 ≤ 144) then "Local" else "Junction" :=
  ajl_bjl_144_rule "CBL (#70)" 70 "12AJL-X" "34BJL-Y" (by decide) (by decide)
    (Or.inl ⟨by decide, by decide⟩)

/- ## TrayAlertEvaluator (download.py, `filter_rows_by_tray_range` and
`rows_have_alert`). The tray-range string has the form `"a-b"`; `a` and
`b` below are the two integers captured by the regex
`^\s*(\d+)\s*-\s*(\d+)\s*$` (a non-matching or empty string is outside
the claim's scope). The code swaps a reversed pair (`if a > b: a, b = b, a`)
before clipping. -/

/-- Clip `[a, b]` to `[1, rows.length]` and take the 1-based inclusive
slice `rows[a-1:b]`; an empty clipped range yields no rows. This is both
the code's post-swap behaviour and the claim's description. -/
def clip_slice (rows : List (List String)) (a b : Nat) : List (List String) :=
  if min rows.length b < max 1 a then []
  else (rows.drop (max 1 a - 1)).take (min rows.length b - max 1 a + 1)

/-- `filter_rows_by_tray_range` on a parsed range: swap a reversed pair,
then clip and slice. -/
def filter_rows_by_tray_range (rows : List (List String)) (a b : Nat) :
    List (List String) :=
  if b < a then clip_slice rows b a else clip_slice rows a b

/-- The column map `{h.lower(): i}` followed by `.get name`: the last
index whose lower-cased header equals `name`, if any. -/
def find_col (headers : List String) (name : String) : Option Nat :=
  headers.enum.foldl (fun acc p => if pyLower p.2 == name then some p.1 else acc) none

/-- `r[idx] if idx is not None and idx < len(r) else ""`. -/
def cell_at (r : List String) (idx : Option Nat) : String :=
  match idx with
  | none => ""
  | some i => if h : i < r.length then r.get ⟨i, h⟩ else ""

/-- One row of the highlight rule: the stripped upper-cased name-like
cell starts with `"T_"`, or the stripped upper-cased bearer-like cell
contains `"OTS"` or `"DWDM"`. A column that cannot be located reads as
`""` and contributes no alert. -/
def row_triggers (idx_os idx_bearer : Option Nat) (r : List String) : Bool :=
  let os_name := pyUpper (pyStrip (cell_at r idx_os))
  let bearer := pyUpper (pyStrip (cell_at r idx_bearer))
  strStartsWith os_name "T_" || (strContains bearer "OTS" || strContains bearer "DWDM")

/-- `rows_have_alert(headers, rows_subset)`: some row of the subset
triggers, with the two columns located case-insensitively. -/
def rows_have_alert (headers : List String) (rows_subset : List (List String)) : Bool :=
  rows_subset.any (row_triggers (find_col headers "os name") (find_col headers "bearer id"))

/-- The evaluation the pipeline performs per (segment, tray) pair:
`rows_have_alert(headers, filter_rows_by_tray_range(rows, tray))`. -/
def evaluate_tray_alert (headers : List String) (rows : List (List String))
    (a b : Nat) : Bool :=
  rows_have_alert headers (filter_rows_by_tray_range rows a b)

/-- Modelled from the claim wording of C6: clip `[a, b]` to
`[1, rows.length]` as given, without first normalizing a reversed
range, and alert iff some row of the resulting slice triggers. -/
def evaluate_tray_alert_claim (headers : List String) (rows : List (List String))
    (a b : Nat) : Bool :=
  (clip_slice rows a b).any
    (row_triggers (find_col headers "os name") (find_col headers "bearer id"))

/-- C6 fails as stated: for the reversed range `"5-1"` the claim's
clipped range `[max(1,5), min(len,1)]` is empty, so the claim requires
`false`; the code first swaps the bounds to `1-5` and scans rows 1-5,
finding the `"T_"`-prefixed name in row 1 and returning `true`. -/
theorem tray_alert_swap_counterexample :
    evaluate_tray_alert ["OS Name"] [["T_A"], ["x"], ["y"], ["z"], ["w"]] 5 1 = true ∧
    evaluate_tray_alert_claim ["OS Name"] [["T_A"], ["x"], ["y"], ["z"], ["w"]] 5 1 = false := by
  refine ⟨by decide, by decide⟩

/-- C6 (amended): for a range `"a-b"` with `a ≤ b` the evaluation
returns `true` iff some row of the 1-based inclusive slice, after
clipping to `[1, rows.length]`, has its name-like cell starting with
`"T_"` or its bearer-like cell containing `"OTS"` or `"DWDM"` (all
case-insensitive, columns located by case-insensitive header match, an
unlocatable column contributing no alert); an empty clipped range gives
`false`; and a reversed range is first normalized by swapping, i.e. the
evaluation only depends on `(min a b, max a b)`. -/
theorem tray_alert_rule (headers : List String) (rows : List (List String))
    (a b : Nat) (hab : a ≤ b) :
    (evaluate_tray_alert headers rows a b = true ↔
      ∃ r ∈ clip_slice rows a b,
        row_triggers (find_col headers "os name") (find_col headers "bearer id") r = true) ∧
    (clip_slice rows a b = [] → evaluate_tray_alert headers rows a b = false) ∧
    (∀ a2 b2 : Nat,
      evaluate_tray_alert headers rows a2 b2 =
        evaluate_tray_alert headers rows (min a2 b2) (max a2 b2)) := by
  have hfe : filter_rows_by_tray_range rows a b = clip_slice rows a b := by
    unfold filter_rows_by_tray_range
    rw [if_neg (Nat.not_lt.mpr hab)]
  refine ⟨?_, ?_, ?_⟩
  · unfold evaluate_tray_alert rows_have_alert
    rw [hfe]
    exact List.any_eq_true
  · intro hempty
    unfold evaluate_tray_alert rows_have_alert
    rw [hfe, hempty]
    rfl
  · intro a2 b2
    unfold evaluate_tray_alert filter_rows_by_tray_range
    rcases Nat.lt_or_ge b2 a2 with hlt | hge
    · rw [if_pos hlt, Nat.min_eq_right (Nat.le_of_lt hlt), Nat.max_eq_left (Nat.le_of_lt hlt),
        if_neg (Nat.not_lt.mpr (Nat.le_of_lt hlt))]
    · rw [if_neg (Nat.not_lt.mpr hge), Nat.min_eq_left hge, Nat.max_eq_right hge,
        if_neg (Nat.not_lt.mpr hge)]

theorem tray_alert_rule_witness :
    evaluate_tray_alert ["OS Name", "Bearer ID"] [["Normal", "DWDM-LINK"]] 1 6 = true :=
  ((tray_alert_rule ["OS Name", "Bearer ID"] [["Normal", "DWDM-LINK"]] 1 6 (by decide)).1).mpr
    ⟨["Normal", "DWDM-LINK"], by decide, by decide⟩

/- ## Selected-fibre extraction (download.py, `process_csv`):
`m = re.search(r'\(#\s*(\d+)\s*\)', fibre_cable)`;
`selected_fibre = int(m.group(1)) if m else 0`. -/

/-- Attempt to match the pattern at the head of the character list:
`(`, `#`, whitespace, one or more digits (captured), whitespace, `)`. -/
def match_sel_at : List Char → Option Nat
  | '(' :: '#' :: rest =>
    let rest1 := rest.dropWhile py_space
    let digits := rest1.takeWhile Char.isDigit
    if digits.isEmpty then none
    else
      match (rest1.dropWhile Char.isDigit).dropWhile py_space with
      | ')' :: _ => some (digits.foldl (fun a c => a * 10 + (c.toNat - 48)) 0)
      | _ => none
  | _ => none

/-- `re.search`: try the pattern at every position, leftmost match wins. -/
def search_sel : List Char → Option Nat
  | [] => none
  | c :: t =>
    match match_sel_at (c :: t) with
    | some n => some n
    | none => search_sel t

/-- The `"(#N)"` token value inside a cable name, if any. -/
def extract_selected_fibre (s : String) : Option Nat := search_sel s.toList

/-- The parsed selected fibre: the token value, defaulting to 0. -/
def selected_fibre_of (s : String) : Nat := (extract_selected_fibre s).getD 0

/-- C10: a record whose cableName contains no `"(#N)"` token gets
`selectedFibre = 0`, whose tray string is `"1-6"` — identical to that of
`selectedFibre = 1` — and the `"1-6"` range selects cross-section rows 1
through 6 (`rows.take 6`). -/
theorem default_fibre_tray (cable : String) (rows : List (List String))
    (h : extract_selected_fibre cable = none) :
    selected_fibre_of cable = 0 ∧
    fibre_tray (selected_fibre_of cable) = "1-6" ∧
    fibre_tray 1 = "1-6" ∧
    filter_rows_by_tray_range rows 1 6 = rows.take 6 := by
  have h0 : selected_fibre_of cable = 0 := by
    unfold selected_fibre_of
    rw [h]
    rfl
  refine ⟨h0, ?_, by decide, ?_⟩
  · rw [h0]
    decide
  · unfold filter_rows_by_tray_range clip_slice
    rw [if_neg (by omega)]
    simp only [Nat.max_self]
    rcases Nat.lt_or_ge (min rows.length 6) 1 with hlt | hge
    · rw [if_pos hlt]
      have hz : rows.length = 0 := by omega
      have hnil : rows = [] := List.length_eq_zero.mp hz
      rw [hnil]
      rfl
    · rw [if_neg (Nat.not_lt.mpr hge)]
      simp only [Nat.sub_self, List.drop_zero]
      have harith : min rows.length 6 - 1 + 1 = min rows.length 6 := by omega
      rw [harith]
      rcases Nat.le_total rows.length 6 with hle | hle
      · rw [Nat.min_eq_left hle, List.take_length, List.take_of_length_le hle]
      · rw [Nat.min_eq_right hle]

theorem default_fibre_tray_witness :
    selected_fibre_of "FOO CABLE (48F)" = 0 ∧
    fibre_tray (selected_fibre_of "FOO CABLE (48F)") = "1-6" ∧
    fibre_tray 1 = "1-6" ∧
    filter_rows_by_tray_range [["r1"], ["r2"], ["r3"], ["r4"], ["r5"], ["r6"], ["r7"]] 1 6 =
      [["r1"], ["r2"], ["r3"], ["r4"], ["r5"], ["r6"], ["r7"]].take 6 :=
  default_fibre_tray "FOO CABLE (48F)" [["r1"], ["r2"], ["r3"], ["r4"], ["r5"], ["r6"], ["r7"]]
    (by decide)

/- ## Markup-table extraction (download.py, `_table_extract` /
`_extract_table`). A parsed table is a list of `tr` elements; each `tr`
is a list of cells, a cell being `(is_th, cleaned_text)`. `find("tr")`
is the head of the list; `find_all(["th"])` keeps the `th` cells,
`find_all("td")` the `td` cells, `find_all(["td", "th"])` all cells, in
document order. -/

/-- The `th` cell texts of one `tr`. -/
def tr_ths (tr : List (Bool × String)) : List String :=
  (tr.filter (fun c => c.1)).map (fun c => c.2)

/-- The `td` cell texts of one `tr`. -/
def tr_tds (tr : List (Bool × String)) : List String :=
  (tr.filter (fun c => !c.1)).map (fun c => c.2)

/-- All cell texts of one `tr`. -/
def tr_cells (tr : List (Bool × String)) : List String :=
  tr.map (fun c => c.2)

/-- The synthesized headers `"Col 1" .. "Col N"`. -/
def col_headers (n : Nat) : List String :=
  (List.range n).map (fun i => "Col " ++ toString (i + 1))

/-- Pad or truncate one body row to the header width; with no headers
the row is kept as-is (`if headers and len(row) != len(headers)`). -/
def pad_row (headers row : List String) : List String :=
  if headers.isEmpty then row
  else if row.length < headers.length then
    row ++ List.replicate (headers.length - row.length) ""
  else if headers.length < row.length then row.take headers.length
  else row

/-- The header/body-row assignment of `_table_extract`: headers from the
first row's `th` cells if any (that row is then excluded from the body,
`trs = trs[1:]`); else `"Col 1".."Col N"` from the count of the first
row's `td` cells (the first row remains a body row); else no headers. -/
def table_headers_trs (first : List (Bool × String))
    (rest : List (List (Bool × String))) :
    List String × List (List (Bool × String)) :=
  if !(tr_ths first).isEmpty then (tr_ths first, rest)
  else if !(tr_tds first).isEmpty then
    (col_headers (tr_tds first).length, first :: rest)
  else ([], first :: rest)

/-- `_table_extract`: the header/body-row assignment above, then the
body loop, which skips rows with no cells and pads or truncates the rest
to the header width. An absent or empty table yields `([], [])`. -/
def table_extract : List (List (Bool × String)) → List String × List (List String)
  | [] => ([], [])
  | first :: rest =>
    ((table_headers_trs first rest).1,
     ((table_headers_trs first rest).2.filter (fun tr => !(tr_cells tr).isEmpty)).map
       (fun tr => pad_row (table_headers_trs first rest).1 (tr_cells tr)))

/-- Modelled from the claim wording of C8: the width of the widest row
of the table. -/
def max_row_width (tbl : List (List (Bool × String))) : Nat :=
  tbl.foldl (fun m tr => max m (tr_cells tr).length) 0

theorem pad_row_length (headers row : List String) (h : ¬headers.isEmpty = true) :
    (pad_row headers row).length = headers.length := by
  unfold pad_row
  rw [if_neg h]
  rcases Nat.lt_trichotomy row.length headers.length with hlt | heq | hgt
  · rw [if_pos hlt]
    simp
    omega
  · rw [if_neg (by omega), if_neg (by omega)]
    exact heq
  · rw [if_neg (by omega), if_pos hgt]
    simp
    omega

/-- C8 fails as stated: for a headerless table whose first row has 2
`td` cells and whose second row has 3, the code synthesizes
`["Col 1", "Col 2"]` from the first row's width, not
`["Col 1", "Col 2", "Col 3"]` from the widest row as the claim says
(the wider second row is then truncated to width 2). -/
theorem table_headers_counterexample :
    (table_extract [[(false, "a"), (false, "b")],
        [(false, "x"), (false, "y"), (false, "z")]]).1 = ["Col 1", "Col 2"] ∧
    col_headers (max_row_width [[(false, "a"), (false, "b")],
        [(false, "x"), (false, "y"), (false, "z")]]) = ["Col 1", "Col 2", "Col 3"] ∧
    (["Col 1", "Col 2"] : List String) ≠ ["Col 1", "Col 2", "Col 3"] ∧
    (table_extract [[(false, "a"), (false, "b")],
        [(false, "x"), (false, "y"), (false, "z")]]).2 = [["a", "b"], ["x", "y"]] := by
  refine ⟨by decide, by decide, by decide, by decide⟩

/-- C8 (amended): headers are the first row's header-like (`th`) cells
when present; otherwise they are synthesized as `"Col 1".."Col N"` with
`N` the number of `td` cells of the first row (which then also remains a
body row); and whenever headers are non-empty every body row of the
result is padded or truncated to exactly the header width. -/
theorem table_extract_rule (first : List (Bool × String))
    (rest : List (List (Bool × String))) :
    (tr_ths first ≠ [] → (table_extract (first :: rest)).1 = tr_ths first) ∧
    (tr_ths first = [] → tr_tds first ≠ [] →
      (table_extract (first :: rest)).1 = col_headers (tr_tds first).length) ∧
    ((table_extract (first :: rest)).1 ≠ [] →
      ∀ r ∈ (table_extract (first :: rest)).2,
        r.length = (table_extract (first :: rest)).1.length) := by
  have hfst : (table_extract (first :: rest)).1 = (table_headers_trs first rest).1 := rfl
  refine ⟨fun hth => ?_, fun hth htd => ?_, fun hne r hr => ?_⟩
  · rw [hfst]
    unfold table_headers_trs
    rw [if_pos (by simpa using hth)]
  · rw [hfst]
    unfold table_headers_trs
    rw [if_neg (by simpa using hth), if_pos (by simpa using htd)]
  · have hsnd : (table_extract (first :: rest)).2 =
        ((table_headers_trs first rest).2.filter (fun tr => !(tr_cells tr).isEmpty)).map
          (fun tr => pad_row (table_headers_trs first rest).1 (tr_cells tr)) := rfl
    rw [hsnd] at hr
    rw [hfst] at hne ⊢
    obtain ⟨tr, _, rfl⟩ := List.mem_map.mp hr
    exact pad_row_length (table_headers_trs first rest).1 (tr_cells tr) (by simpa using hne)

theorem table_extract_rule_witness :
    (table_extract [[(true, "OS Name"), (true, "Bearer ID")], [(false, "T_A")]]).1 =
      tr_ths [(true, "OS Name"), (true, "Bearer ID")] ∧
    (table_extract [[(false, "a"), (false, "b")], [(false, "x")]]).1 =
      col_headers (tr_tds [(false, "a"), (false, "b")]).length ∧
    (["a", "b"] : List String).length =
      (table_extract [[(false, "a"), (false, "b")], [(false, "x")]]).1.length :=
  ⟨(table_extract_rule [(true, "OS Name"), (true, "Bearer ID")] [[(false, "T_A")]]).1
      (by decide),
   (table_extract_rule [(false, "a"), (false, "b")] [[(false, "x")]]).2.1
      (by decide) (by decide),
   by
    have h := (table_extract_rule [(false, "a"), (false, "b")] [[(false, "x")]]).2.2
      (by decide) ["a", "b"] (by decide)
    exact h⟩





